import Mathlib

/-!
# Verification of the SigMOS audio-quality evaluation API

Shallow embedding of `sigmos_api.py` (a Flask HTTP service that validates an
audio payload, decodes it, scores it with an external engine, and returns an
ordered JSON result).  Python dicts are modelled as ordered association lists
(`JObj`), so insertion order — which Python preserves and the service relies on
via `OrderedDict` — is the list order.  Machine floats are modelled as `ℚ`;
`roundTo n` models Python's `round(x, n)` (the tie-breaking rule is immaterial
to the properties proved here, which relate two values rounded by the same
function or compare rounded to unrounded values).  Exceptions are modelled with
`Except` / explicit failure branches: every Python statement that can raise
inside a `try` block becomes an explicit failure case feeding the matching
`except` handler's return value.  External collaborators (`soundfile.read`,
the SigMOS engine) are parameters of the embedded functions.
-/

namespace SigMOS

/-- JSON-like values.  Objects keep their fields in insertion order, exactly as
Python dicts / `OrderedDict` serialize. -/
inductive JValue where
  | jBool (b : Bool)
  | jStr (s : String)
  | jNum (q : ℚ)
  | jObj (fields : List (String × JValue))

/-- A JSON object: an ordered list of key/value fields. -/
abbrev JObj := List (String × JValue)

/-- Python truthiness of a JSON value, as used by `result.get("success", False)`. -/
def jtruthy : JValue → Bool
  | .jBool b => b
  | .jStr s => !(s == "")
  | .jNum q => if q = 0 then false else true
  | .jObj o => !o.isEmpty

/-- `result.get("success", False)` being truthy: the branch condition of both
endpoints (`sigmos_api.py` lines 236 and 270). -/
def resultSuccess (r : JObj) : Bool :=
  match List.lookup "success" r with
  | some v => jtruthy v
  | none => false

/-- `ALLOWED_EXTENSIONS = {'wav', 'mp3', 'flac', 'm4a'}` (`sigmos_api.py` line 27).
Listed in the literal's order. -/
def ALLOWED_EXTENSIONS : List String := ["wav", "mp3", "flac", "m4a"]

/-- The characters of a filename that follow its last `'.'` (the whole string
when no dot occurs): Python's `filename.rsplit('.', 1)[1]` whenever
`'.' in filename`. -/
def extAfterLastDot (cs : List Char) : List Char :=
  (cs.reverse.takeWhile (fun c => c ≠ '.')).reverse

/-- Python's `str.lower()`, modelled as per-character lowering. -/
def lowerStr (cs : List Char) : String :=
  String.mk (cs.map Char.toLower)

/-- `allowed_file` (`sigmos_api.py` lines 41-44):
`'.' in filename and filename.rsplit('.', 1)[1].lower() in ALLOWED_EXTENSIONS`. -/
def allowed_file (filename : String) : Bool :=
  filename.toList.contains '.' &&
    ALLOWED_EXTENSIONS.contains (lowerStr (extAfterLastDot filename.toList))

/-- Python's `round(q, n)`: round to `n` decimal digits. -/
def roundTo (n : ℕ) (q : ℚ) : ℚ :=
  ((round (q * 10 ^ n) : ℤ) : ℚ) / 10 ^ n

/-- `os.path.basename`: the part of a path after its last `'/'`. -/
def basename (p : String) : String :=
  String.mk ((p.toList.reverse.takeWhile (fun c => c ≠ '/')).reverse)

/-- The decoded audio array returned by `soundfile.read`: a numpy array that is
either 1-D (`mono`, one sample per frame) or 2-D (`multi`, one row per frame,
one column per channel). -/
inductive AudioData where
  | mono (samples : List ℚ)
  | multi (frames : List (List ℚ))

/-- `len(audio_data)`: number of frames (rows for a 2-D array). -/
def audioLen : AudioData → ℕ
  | .mono samples => samples.length
  | .multi frames => frames.length

/-- `audio_data[:, 0]`: the first channel of a 2-D array. -/
def firstChannel (frames : List (List ℚ)) : List ℚ :=
  frames.map (fun fr => fr.headD 0)

/-- The channel reduction of `sigmos_api.py` lines 87-92: a 2-D array is
replaced by its first channel, a 1-D array is passed through. -/
def toMonoSamples : AudioData → List ℚ
  | .mono samples => samples
  | .multi frames => firstChannel frames

/-- The `converted_to_mono` flag set in `sigmos_api.py` lines 88-92. -/
def convertedToMono : AudioData → Bool
  | .mono _ => false
  | .multi _ => true

/-- Seven named engine sub-scores, the result of `sigmos_estimator.run`. -/
structure Scores where
  MOS_OVRL : ℚ
  MOS_SIG : ℚ
  MOS_NOISE : ℚ
  MOS_LOUD : ℚ
  MOS_COL : ℚ
  MOS_DISC : ℚ
  MOS_REVERB : ℚ

/-- The quality-estimation engine, an external collaborator: scoring can fail
(`Except.error` models an exception escaping `run`). -/
abbrev Engine := List ℚ → ℕ → Except String Scores

/-- `sigmos_estimator.run(audio_data, sr=sample_rate)` where `sigmos_estimator`
is the global that is `None` until `init_sigmos_model` runs: calling `.run` on
`None` raises `AttributeError`, modelled as an error result. -/
def runEngine (engine : Option Engine) (samples : List ℚ) (sr : ℕ) : Except String Scores :=
  match engine with
  | none => .error "AttributeError: NoneType object has no attribute run"
  | some e => e samples sr

/-- The outcome of `soundfile.read` on a given path: decoded data plus sample
rate, or a raised exception (corrupt file, unsupported encoding, ...). -/
inductive DecodeResult where
  | fail (msg : String)
  | ok (data : AudioData) (rate : ℕ)

/-- The dict built by the `except` handler of `evaluate_audio_file`
(`sigmos_api.py` lines 131-136): `{"success": False, "error": str(e),
"traceback": traceback.format_exc()}`, in that insertion order. -/
def failureBody (msg : String) : JObj :=
  [("success", .jBool false),
   ("error", .jStr msg),
   ("traceback", .jStr ("Traceback (most recent call last): " ++ msg))]

/-- The `file_info` dict (`sigmos_api.py` lines 80-85), with the
`converted_to_mono` key inserted afterwards (lines 90/92), hence last. -/
def fileInfoObj (audio_file_path : String) (data : AudioData) (rate : ℕ) : JObj :=
  [("filename", .jStr (basename audio_file_path)),
   ("file_size_samples", .jNum (audioLen data)),
   ("sample_rate", .jNum (rate : ℚ)),
   ("duration_seconds", .jNum (roundTo 2 ((audioLen data : ℚ) / (rate : ℚ)))),
   ("converted_to_mono", .jBool (convertedToMono data))]

/-- The localized display scores `mos_scores` (`sigmos_api.py` lines 101-109):
an `OrderedDict` of the seven dimensions, each engine value rounded to 3
decimals. -/
def mosScoresObj (s : Scores) : JObj :=
  [("整体质量_MOS_OVRL", .jNum (roundTo 3 s.MOS_OVRL)),
   ("信号质量_MOS_SIG", .jNum (roundTo 3 s.MOS_SIG)),
   ("噪声程度_MOS_NOISE", .jNum (roundTo 3 s.MOS_NOISE)),
   ("响度_MOS_LOUD", .jNum (roundTo 3 s.MOS_LOUD)),
   ("着色度_MOS_COL", .jNum (roundTo 3 s.MOS_COL)),
   ("不连续性_MOS_DISC", .jNum (roundTo 3 s.MOS_DISC)),
   ("混响_MOS_REVERB", .jNum (roundTo 3 s.MOS_REVERB))]

/-- The raw scores `raw_scores` (`sigmos_api.py` lines 111-119): an
`OrderedDict` of the seven engine values, unrounded (`float(...)` is the
identity on the modelled value). -/
def rawScoresObj (s : Scores) : JObj :=
  [("MOS_OVRL", .jNum s.MOS_OVRL),
   ("MOS_SIG", .jNum s.MOS_SIG),
   ("MOS_NOISE", .jNum s.MOS_NOISE),
   ("MOS_LOUD", .jNum s.MOS_LOUD),
   ("MOS_COL", .jNum s.MOS_COL),
   ("MOS_DISC", .jNum s.MOS_DISC),
   ("MOS_REVERB", .jNum s.MOS_REVERB)]

/-- The success `evaluation_result` `OrderedDict` (`sigmos_api.py` lines 121-127). -/
def successBody (now : String) (audio_file_path : String) (data : AudioData) (rate : ℕ)
    (s : Scores) : JObj :=
  [("success", .jBool true),
   ("timestamp", .jStr now),
   ("file_info", .jObj (fileInfoObj audio_file_path data rate)),
   ("mos_scores", .jObj (mosScoresObj s)),
   ("raw_scores", .jObj (rawScoresObj s))]

/-- `evaluate_audio_file` (`sigmos_api.py` lines 67-136).  `fs` is the set of
paths that exist on the server's filesystem; `decode` models `soundfile.read`;
`now` is `datetime.now().isoformat()`.  A sample rate of `0` makes the Python
duration computation (line 84) raise `ZeroDivisionError` into the `except`
handler before any further processing. -/
def evaluate_audio_file (fs : List String) (decode : String → DecodeResult)
    (engine : Option Engine) (now : String) (audio_file_path : String) : JObj :=
  if audio_file_path ∈ fs then
    match decode audio_file_path with
    | .fail msg => failureBody msg
    | .ok data rate =>
      if rate = 0 then
        failureBody "ZeroDivisionError: division by zero"
      else
        match runEngine engine (toMonoSamples data) rate with
        | .error msg => failureBody msg
        | .ok s => successBody now audio_file_path data rate s
  else
    [("error", .jStr ("音频文件不存在: " ++ audio_file_path))]

/-- An HTTP response: status code and JSON body. -/
structure Response where
  status : ℕ
  body : JObj

/-- The final branch of both evaluation endpoints: `jsonify(result)` (status
200) when `result.get("success", False)` is truthy, else `jsonify(result), 500`. -/
def respond (result : JObj) : Response :=
  if resultSuccess result then ⟨200, result⟩ else ⟨500, result⟩

/-- The error message of `sigmos_api.py` line 217, naming the allowed set via
`', '.join(ALLOWED_EXTENSIONS)`. -/
def extErrorMsg : String :=
  "不支持的文件格式，支持的格式: " ++ String.intercalate ", " ALLOWED_EXTENSIONS

/-- `POST /evaluate` — `evaluate_uploaded_file` (`sigmos_api.py` lines 193-245).

* `filePart` is `request.files['file']` when present (`none` models a missing
  `file` part), carrying the client filename.
* `tempPath` is the generated destination
  `os.path.join(UPLOAD_FOLDER, f"{uuid.uuid4()}_{secure_filename(...)}")`;
  uuid generation makes it a parameter here.
* `save` models `file.save(file_path)`: `none` means it succeeded (the file now
  exists), `some e` means it raised with message `e` before creating the file,
  landing in the `except` handler of line 241.
* `deleteFails` models `os.remove` raising; the inner `try/except: pass`
  swallows it.

Returns the HTTP response together with the resulting filesystem. -/
def evaluate_uploaded_file (filePart : Option String) (fs : List String)
    (decode : String → DecodeResult) (engine : Option Engine) (now : String)
    (tempPath : String) (save : Option String) (deleteFails : Bool) :
    Response × List String :=
  match filePart with
  | none =>
    (⟨400, [("success", .jBool false), ("error", .jStr "没有上传文件")]⟩, fs)
  | some fname =>
    if fname = "" then
      (⟨400, [("success", .jBool false), ("error", .jStr "没有选择文件")]⟩, fs)
    else if !allowed_file fname then
      (⟨400, [("success", .jBool false), ("error", .jStr extErrorMsg)]⟩, fs)
    else
      match save with
      | some e =>
        (⟨500, [("success", .jBool false), ("error", .jStr ("处理文件时出错: " ++ e))]⟩, fs)
      | none =>
        let fs1 := tempPath :: fs
        let result := evaluate_audio_file fs1 decode engine now tempPath
        let fs2 := if deleteFails then fs1 else fs1.erase tempPath
        (respond result, fs2)

/-- `POST /evaluate_path` — `evaluate_file_path` (`sigmos_api.py` lines 247-273).
`filePathParam` is the `file_path` value of the JSON body; `none` models a
missing/empty body or a body without that key. -/
def evaluate_file_path (filePathParam : Option String) (fs : List String)
    (decode : String → DecodeResult) (engine : Option Engine) (now : String) : Response :=
  match filePathParam with
  | none =>
    ⟨400, [("success", .jBool false), ("error", .jStr "请提供file_path参数")]⟩
  | some p =>
    if p ∈ fs then
      respond (evaluate_audio_file fs decode engine now p)
    else
      ⟨404, [("success", .jBool false), ("error", .jStr ("文件不存在: " ++ p))]⟩

/-- `GET /health` — `health_check` (`sigmos_api.py` lines 154-169). -/
def health_check (engine : Option Engine) : Response :=
  match engine with
  | none =>
    ⟨503, [("status", .jStr "unhealthy"), ("message", .jStr "SigMOS模型未初始化")]⟩
  | some _ =>
    ⟨200, [("status", .jStr "healthy"), ("message", .jStr "服务运行正常"),
           ("model_loaded", .jBool true)]⟩

/-- Look a key up inside the `file_info` sub-object of a result dict. -/
def infoField (r : JObj) (k : String) : Option JValue :=
  match List.lookup "file_info" r with
  | some (.jObj info) => List.lookup k info
  | _ => none

/-- The numeric values of an object's fields, in field order. -/
def numValues (o : JObj) : List ℚ :=
  o.map (fun p => match p.2 with | .jNum q => q | _ => 0)

/-- The documented failure shape `{success: false, error, [traceback]}`: a
`success` field holding `false`, an `error` message, and nothing else except an
optional `traceback`. -/
def failureShape (b : JObj) : Prop :=
  List.lookup "success" b = some (.jBool false) ∧
  (∃ m, List.lookup "error" b = some (.jStr m)) ∧
  (b.map Prod.fst = ["success", "error"] ∨ b.map Prod.fst = ["success", "error", "traceback"])

/-- Concrete engine output used to exercise the pipeline. -/
def sampleScores : Scores := ⟨1, 2, 3, 4, 5, 6, 7⟩

/-- Concrete engine used to exercise the pipeline. -/
def sampleEngine : Engine := fun _ _ => .ok sampleScores

/-- Concrete decoder producing a 3-frame mono signal at 2 Hz. -/
def sampleDecodeMono : String → DecodeResult := fun _ => .ok (.mono [0, 1/2, 1]) 2

/-- Concrete decoder producing a 2-frame stereo signal at 2 Hz. -/
def sampleDecodeMulti : String → DecodeResult := fun _ => .ok (.multi [[1, 2], [3, 4]]) 2

/-- Concrete decoder that raises, modelling a corrupt file. -/
def sampleDecodeFail : String → DecodeResult := fun _ => .fail "LibsndfileError: unsupported format"

/-! ## Splitting a filename at its last dot -/

theorem extAfterLastDot_append (pre ext : List Char) (hext : '.' ∉ ext) :
    extAfterLastDot (pre ++ '.' :: ext) = ext := by
  unfold extAfterLastDot
  have hall : ∀ a ∈ ext.reverse, (fun c => decide (c ≠ '.')) a = true := by
    intro a ha
    simp only [List.mem_reverse] at ha
    simp only [decide_eq_true_eq]
    exact fun h => hext (h ▸ ha)
  rw [List.reverse_append, List.reverse_cons, List.append_assoc,
    List.takeWhile_append_of_pos hall, List.singleton_append,
    List.takeWhile_cons_of_neg (by simp), List.append_nil, List.reverse_reverse]

theorem exists_split_at_last_dot (cs : List Char) (h : '.' ∈ cs) :
    ∃ pre, cs = pre ++ '.' :: extAfterLastDot cs ∧ '.' ∉ extAfterLastDot cs := by
  have hnotall : ¬ ∀ x ∈ cs.reverse, (fun c => decide (c ≠ '.')) x = true := by
    intro hall
    have := hall '.' (List.mem_reverse.mpr h)
    simp at this
  have hd : cs.reverse.dropWhile (fun c => decide (c ≠ '.')) ≠ [] := by
    intro hnil
    exact hnotall (List.dropWhile_eq_nil_iff.mp hnil)
  obtain ⟨x, xs, hxs⟩ := List.exists_cons_of_ne_nil hd
  have hx : x = '.' := by
    have h0 := List.head?_dropWhile_not (fun c => decide (c ≠ '.')) cs.reverse
    rw [hxs] at h0
    simpa using h0
  have hsplit : cs.reverse = cs.reverse.takeWhile (fun c => decide (c ≠ '.')) ++ '.' :: xs := by
    conv_lhs => rw [← List.takeWhile_append_dropWhile (fun c => decide (c ≠ '.')) cs.reverse]
    rw [hxs, hx]
  refine ⟨xs.reverse, ?_, ?_⟩
  · conv_lhs => rw [← List.reverse_reverse cs]
    rw [hsplit, List.reverse_append, List.reverse_cons, List.append_assoc]
    unfold extAfterLastDot
    simp
  · intro hmem
    unfold extAfterLastDot at hmem
    rw [List.mem_reverse] at hmem
    have := List.mem_takeWhile_imp hmem
    simp at this

theorem allowed_file_iff (f : String) :
    allowed_file f = true ↔
      ∃ pre ext : List Char, f.toList = pre ++ '.' :: ext ∧ '.' ∉ ext ∧
        lowerStr ext ∈ ALLOWED_EXTENSIONS := by
  unfold allowed_file
  rw [Bool.and_eq_true]
  constructor
  · rintro ⟨h1, h2⟩
    have hdot : '.' ∈ f.toList := by
      simpa using h1
    obtain ⟨pre, hsplit, hnd⟩ := exists_split_at_last_dot f.toList hdot
    refine ⟨pre, extAfterLastDot f.toList, hsplit, hnd, ?_⟩
    simpa using h2
  · rintro ⟨pre, ext, hsplit, hnd, hmem⟩
    have hext : extAfterLastDot f.toList = ext := by
      rw [hsplit]; exact extAfterLastDot_append pre ext hnd
    constructor
    · rw [hsplit]; simp
    · rw [hext]; simpa using hmem

/-! ## Evaluation lemmas for the orchestrator -/

theorem resultSuccess_failureBody (msg : String) : resultSuccess (failureBody msg) = false := rfl

theorem resultSuccess_successBody (now p : String) (data : AudioData) (rate : ℕ) (s : Scores) :
    resultSuccess (successBody now p data rate s) = true := rfl

theorem failureShape_failureBody (msg : String) : failureShape (failureBody msg) :=
  ⟨rfl, ⟨msg, rfl⟩, .inr rfl⟩

theorem evaluate_audio_file_success (fs : List String) (decode : String → DecodeResult)
    (engine : Option Engine) (now p : String) (data : AudioData) (rate : ℕ) (s : Scores)
    (e : Engine) (hmem : p ∈ fs) (hdec : decode p = .ok data rate) (hrate : rate ≠ 0)
    (heng : engine = some e) (hrun : e (toMonoSamples data) rate = .ok s) :
    evaluate_audio_file fs decode engine now p = successBody now p data rate s := by
  simp [evaluate_audio_file, hmem, hdec, hrate, runEngine, heng, hrun]

theorem evaluate_audio_file_cases (fs : List String) (decode : String → DecodeResult)
    (engine : Option Engine) (now p : String) (hmem : p ∈ fs) :
    (∃ msg, evaluate_audio_file fs decode engine now p = failureBody msg) ∨
    (∃ data rate s, evaluate_audio_file fs decode engine now p = successBody now p data rate s) := by
  unfold evaluate_audio_file
  rw [if_pos hmem]
  cases hd : decode p with
  | fail msg => exact .inl ⟨msg, rfl⟩
  | ok data rate =>
    dsimp only
    by_cases hr : rate = 0
    · rw [if_pos hr]
      exact .inl ⟨_, rfl⟩
    · rw [if_neg hr]
      cases he : runEngine engine (toMonoSamples data) rate with
      | error msg => exact .inl ⟨msg, rfl⟩
      | ok s => exact .inr ⟨data, rate, s, rfl⟩

theorem resultSuccess_no_engine (fs : List String) (decode : String → DecodeResult)
    (now p : String) :
    resultSuccess (evaluate_audio_file fs decode none now p) = false := by
  unfold evaluate_audio_file
  by_cases hmem : p ∈ fs
  · rw [if_pos hmem]
    cases decode p with
    | fail msg => rfl
    | ok data rate =>
      dsimp only
      by_cases hr : rate = 0
      · rw [if_pos hr]; rfl
      · rw [if_neg hr]; rfl
  · rw [if_neg hmem]; rfl

theorem upload_body_shape (filePart : Option String) (fs : List String)
    (decode : String → DecodeResult) (engine : Option Engine) (now tempPath : String)
    (save : Option String) (deleteFails : Bool) :
    (evaluate_uploaded_file filePart fs decode engine now tempPath save deleteFails).1.status = 200 ∨
    failureShape (evaluate_uploaded_file filePart fs decode engine now tempPath save deleteFails).1.body := by
  unfold evaluate_uploaded_file
  match filePart with
  | none => exact .inr ⟨rfl, ⟨_, rfl⟩, .inl rfl⟩
  | some f =>
    by_cases hf : f = ""
    · simp only [if_pos hf]
      exact .inr ⟨rfl, ⟨_, rfl⟩, .inl rfl⟩
    · simp only [if_neg hf]
      by_cases ha : allowed_file f
      · simp only [ha, Bool.not_true, Bool.false_eq_true, if_false]
        match save with
        | some e => exact .inr ⟨rfl, ⟨_, rfl⟩, .inl rfl⟩
        | none =>
          simp only
          set result := evaluate_audio_file (tempPath :: fs) decode engine now tempPath with hresult
          by_cases hs : resultSuccess result
          · left
            simp [respond, hs]
          · right
            have hform := evaluate_audio_file_cases (tempPath :: fs) decode engine now tempPath
              (List.mem_cons_self tempPath fs)
            rw [← hresult] at hform
            rcases hform with ⟨msg, hmsg⟩ | ⟨data, rate, s, hsucc⟩
            · simp [respond, hs, hmsg]
              exact failureShape_failureBody msg
            · exact absurd (hsucc ▸ resultSuccess_successBody now tempPath data rate s) hs
      · simp only [ha, Bool.not_false, if_true]
        exact .inr ⟨rfl, ⟨_, rfl⟩, .inl rfl⟩

theorem path_body_shape (filePathParam : Option String) (fs : List String)
    (decode : String → DecodeResult) (engine : Option Engine) (now : String) :
    (evaluate_file_path filePathParam fs decode engine now).status = 200 ∨
    failureShape (evaluate_file_path filePathParam fs decode engine now).body := by
  unfold evaluate_file_path
  match filePathParam with
  | none => exact .inr ⟨rfl, ⟨_, rfl⟩, .inl rfl⟩
  | some p =>
    by_cases hmem : p ∈ fs
    · simp only [if_pos hmem]
      set result := evaluate_audio_file fs decode engine now p with hresult
      by_cases hs : resultSuccess result
      · left
        simp [respond, hs]
      · right
        have hform := evaluate_audio_file_cases fs decode engine now p hmem
        rw [← hresult] at hform
        rcases hform with ⟨msg, hmsg⟩ | ⟨data, rate, s, hsucc⟩
        · simp [respond, hs, hmsg]
          exact failureShape_failureBody msg
        · exact absurd (hsucc ▸ resultSuccess_successBody now p data rate s) hs
    · simp only [if_neg hmem]
      exact .inr ⟨rfl, ⟨_, rfl⟩, .inl rfl⟩

/-! ## Claims -/

theorem respond_status (r : JObj) : (respond r).status = 200 ∨ (respond r).status = 500 := by
  unfold respond
  by_cases h : resultSuccess r
  · rw [if_pos h]; exact .inl rfl
  · rw [if_neg h]; exact .inr rfl

theorem upload_pass_status (f : String) (fs : List String) (decode : String → DecodeResult)
    (engine : Option Engine) (now tempPath : String) (save : Option String) (deleteFails : Bool)
    (hf : f ≠ "") (ha : allowed_file f = true) :
    (evaluate_uploaded_file (some f) fs decode engine now tempPath save deleteFails).1.status = 200 ∨
    (evaluate_uploaded_file (some f) fs decode engine now tempPath save deleteFails).1.status = 500 := by
  unfold evaluate_uploaded_file
  simp only [if_neg hf, ha, Bool.not_true, Bool.false_eq_true, if_false]
  match save with
  | some e => exact .inr rfl
  | none => exact respond_status _

/-- Claim C1: for every upload-mode request that passes validation, the
temporary artifact created for it is removed before the request completes on
every outcome (the decoder and engine are universally quantified, so normal
completion, decode failure and scoring failure are all covered): deleting
succeeds restores the filesystem and leaves the temp path absent, and a failed
deletion (swallowed by the inner `try/except: pass`) never changes the
response. -/
theorem claim_C1_upload_temp_cleanup (fname tempPath now : String) (fs : List String)
    (decode : String → DecodeResult) (engine : Option Engine)
    (hf : fname ≠ "") (ha : allowed_file fname = true) (hfresh : tempPath ∉ fs) :
    (evaluate_uploaded_file (some fname) fs decode engine now tempPath none false).2 = fs ∧
    tempPath ∉ (evaluate_uploaded_file (some fname) fs decode engine now tempPath none false).2 ∧
    ∀ deleteFails : Bool,
      (evaluate_uploaded_file (some fname) fs decode engine now tempPath none deleteFails).1 =
      (evaluate_uploaded_file (some fname) fs decode engine now tempPath none false).1 := by
  have hfs : (evaluate_uploaded_file (some fname) fs decode engine now tempPath none false).2 = fs := by
    simp [evaluate_uploaded_file, hf, ha, List.erase_cons_head]
  refine ⟨hfs, by rw [hfs]; exact hfresh, ?_⟩
  intro dfail
  simp [evaluate_uploaded_file, hf, ha]

/-- Witness for C1 at a concrete upload whose decode fails. -/
theorem claim_C1_witness :
    ("a.wav" ≠ "" ∧ allowed_file "a.wav" = true ∧ "uploads/u_a.wav" ∉ ([] : List String)) ∧
    ((evaluate_uploaded_file (some "a.wav") [] sampleDecodeFail none "t" "uploads/u_a.wav" none false).2
        = ([] : List String) ∧
     "uploads/u_a.wav" ∉
        (evaluate_uploaded_file (some "a.wav") [] sampleDecodeFail none "t" "uploads/u_a.wav" none false).2 ∧
     ∀ deleteFails : Bool,
       (evaluate_uploaded_file (some "a.wav") [] sampleDecodeFail none "t" "uploads/u_a.wav" none deleteFails).1 =
       (evaluate_uploaded_file (some "a.wav") [] sampleDecodeFail none "t" "uploads/u_a.wav" none false).1) :=
  ⟨⟨by decide, by decide, by decide⟩,
   claim_C1_upload_temp_cleanup "a.wav" "uploads/u_a.wav" "t" [] sampleDecodeFail none
     (by decide) (by decide) (by decide)⟩

/-- Claim C2: every response of `POST /evaluate` or `POST /evaluate_path`
whose status is not 200 carries the failure shape: `success` present and
`false`, an `error` message present, and no other field except an optional
`traceback`. -/
theorem claim_C2_failure_shape :
    (∀ (filePart : Option String) (fs : List String) (decode : String → DecodeResult)
       (engine : Option Engine) (now tempPath : String) (save : Option String) (deleteFails : Bool),
       (evaluate_uploaded_file filePart fs decode engine now tempPath save deleteFails).1.status ≠ 200 →
       failureShape (evaluate_uploaded_file filePart fs decode engine now tempPath save deleteFails).1.body)
    ∧ (∀ (filePathParam : Option String) (fs : List String) (decode : String → DecodeResult)
       (engine : Option Engine) (now : String),
       (evaluate_file_path filePathParam fs decode engine now).status ≠ 200 →
       failureShape (evaluate_file_path filePathParam fs decode engine now).body) := by
  constructor
  · intro filePart fs decode engine now tempPath save dfail hst
    rcases upload_body_shape filePart fs decode engine now tempPath save dfail with h | h
    · exact absurd h hst
    · exact h
  · intro param fs decode engine now hst
    rcases path_body_shape param fs decode engine now with h | h
    · exact absurd h hst
    · exact h

/-- Witness for C2 at concrete failing requests (missing file part and missing
`file_path` parameter). -/
theorem claim_C2_witness :
    ((evaluate_uploaded_file none [] sampleDecodeFail none "t" "u" none false).1.status ≠ 200 ∧
     failureShape (evaluate_uploaded_file none [] sampleDecodeFail none "t" "u" none false).1.body) ∧
    ((evaluate_file_path none [] sampleDecodeFail none "t").status ≠ 200 ∧
     failureShape (evaluate_file_path none [] sampleDecodeFail none "t").body) :=
  ⟨⟨by decide, claim_C2_failure_shape.1 none [] sampleDecodeFail none "t" "u" none false (by decide)⟩,
   ⟨by decide, claim_C2_failure_shape.2 none [] sampleDecodeFail none "t" (by decide)⟩⟩

/-- Claim C3: for every successfully decoded (and scored) input, the
`duration_seconds` field of `file_info` equals `file_size_samples / sample_rate`
rounded to 2 decimal places; the other two fields carry exactly the decoded
frame count and sample rate. -/
theorem claim_C3_duration (fs : List String) (decode : String → DecodeResult)
    (engine : Option Engine) (now p : String) (data : AudioData) (rate : ℕ) (s : Scores)
    (e : Engine) (hmem : p ∈ fs) (hdec : decode p = .ok data rate) (hrate : rate ≠ 0)
    (heng : engine = some e) (hrun : e (toMonoSamples data) rate = .ok s) :
    infoField (evaluate_audio_file fs decode engine now p) "file_size_samples"
      = some (.jNum (audioLen data)) ∧
    infoField (evaluate_audio_file fs decode engine now p) "sample_rate"
      = some (.jNum (rate : ℚ)) ∧
    infoField (evaluate_audio_file fs decode engine now p) "duration_seconds"
      = some (.jNum (roundTo 2 ((audioLen data : ℚ) / (rate : ℚ)))) := by
  rw [evaluate_audio_file_success fs decode engine now p data rate s e hmem hdec hrate heng hrun]
  exact ⟨rfl, rfl, rfl⟩

/-- Witness for C3 at a concrete 3-sample mono file at 2 Hz. -/
theorem claim_C3_witness :
    infoField (evaluate_audio_file ["uploads/a.wav"] sampleDecodeMono (some sampleEngine) "t" "uploads/a.wav")
      "file_size_samples" = some (.jNum (audioLen (.mono [0, 1/2, 1]))) ∧
    infoField (evaluate_audio_file ["uploads/a.wav"] sampleDecodeMono (some sampleEngine) "t" "uploads/a.wav")
      "sample_rate" = some (.jNum ((2 : ℕ) : ℚ)) ∧
    infoField (evaluate_audio_file ["uploads/a.wav"] sampleDecodeMono (some sampleEngine) "t" "uploads/a.wav")
      "duration_seconds" = some (.jNum (roundTo 2 ((audioLen (.mono [0, 1/2, 1]) : ℚ) / ((2 : ℕ) : ℚ)))) :=
  claim_C3_duration ["uploads/a.wav"] sampleDecodeMono (some sampleEngine) "t" "uploads/a.wav"
    (.mono [0, 1/2, 1]) 2 sampleScores sampleEngine (by decide) rfl (by decide) rfl rfl

/-- Claim C4: the engine is invoked on exactly `toMonoSamples data` (the
response depends on the engine only through its value there); for multi-channel
input those samples are exactly the first channel (no averaging) and
`converted_to_mono` is reported `true`; for single-channel input they are the
decoded samples unchanged, whose count is the frame count reported in
`file_size_samples`, and `converted_to_mono` is reported `false`. -/
theorem claim_C4_mono_reduction (fs : List String) (decode : String → DecodeResult)
    (engine : Option Engine) (now p : String) (data : AudioData) (rate : ℕ) (s : Scores)
    (e : Engine) (hmem : p ∈ fs) (hdec : decode p = .ok data rate) (hrate : rate ≠ 0)
    (heng : engine = some e) (hrun : e (toMonoSamples data) rate = .ok s) :
    (∀ e2 : Engine, e2 (toMonoSamples data) rate = e (toMonoSamples data) rate →
       evaluate_audio_file fs decode (some e2) now p = evaluate_audio_file fs decode engine now p)
    ∧ (∀ frames, data = .multi frames →
        toMonoSamples data = frames.map (fun fr => fr.headD 0) ∧
        infoField (evaluate_audio_file fs decode engine now p) "converted_to_mono"
          = some (.jBool true))
    ∧ (∀ sm, data = .mono sm →
        toMonoSamples data = sm ∧
        audioLen data = sm.length ∧
        infoField (evaluate_audio_file fs decode engine now p) "converted_to_mono"
          = some (.jBool false) ∧
        infoField (evaluate_audio_file fs decode engine now p) "file_size_samples"
          = some (.jNum sm.length)) := by
  rw [evaluate_audio_file_success fs decode engine now p data rate s e hmem hdec hrate heng hrun]
  refine ⟨?_, ?_, ?_⟩
  · intro e2 he2
    rw [evaluate_audio_file_success fs decode (some e2) now p data rate s e2 hmem hdec hrate rfl
      (he2.trans hrun)]
  · rintro frames rfl
    exact ⟨rfl, rfl⟩
  · rintro sm rfl
    exact ⟨rfl, rfl, rfl, rfl⟩

/-- Witness for C4 at a concrete 2-frame stereo file: the first channel is
selected and the conversion flag is set. -/
theorem claim_C4_witness :
    toMonoSamples (.multi [[1, 2], [3, 4]]) = ([[1, 2], [3, 4]] : List (List ℚ)).map (fun fr => fr.headD 0) ∧
    infoField (evaluate_audio_file ["uploads/a.wav"] sampleDecodeMulti (some sampleEngine) "t" "uploads/a.wav")
      "converted_to_mono" = some (.jBool true) :=
  (claim_C4_mono_reduction ["uploads/a.wav"] sampleDecodeMulti (some sampleEngine) "t" "uploads/a.wav"
    (.multi [[1, 2], [3, 4]]) 2 sampleScores sampleEngine (by decide) rfl (by decide) rfl rfl).2.1
    [[1, 2], [3, 4]] rfl

/-- Claim C5: in every successful evaluation each of the seven `mos_scores`
values equals the corresponding `raw_scores` value rounded to 3 decimal places,
and the `raw_scores` values are the engine's seven values unrounded. -/
theorem claim_C5_display_rounding (fs : List String) (decode : String → DecodeResult)
    (engine : Option Engine) (now p : String) (data : AudioData) (rate : ℕ) (s : Scores)
    (e : Engine) (hmem : p ∈ fs) (hdec : decode p = .ok data rate) (hrate : rate ≠ 0)
    (heng : engine = some e) (hrun : e (toMonoSamples data) rate = .ok s) :
    ∃ mos raw : JObj,
      List.lookup "mos_scores" (evaluate_audio_file fs decode engine now p) = some (.jObj mos) ∧
      List.lookup "raw_scores" (evaluate_audio_file fs decode engine now p) = some (.jObj raw) ∧
      numValues mos = (numValues raw).map (roundTo 3) ∧
      numValues raw = [s.MOS_OVRL, s.MOS_SIG, s.MOS_NOISE, s.MOS_LOUD, s.MOS_COL,
        s.MOS_DISC, s.MOS_REVERB] := by
  rw [evaluate_audio_file_success fs decode engine now p data rate s e hmem hdec hrate heng hrun]
  exact ⟨mosScoresObj s, rawScoresObj s, rfl, rfl, rfl, rfl⟩

/-- Witness for C5 at a concrete successful evaluation. -/
theorem claim_C5_witness :
    ∃ mos raw : JObj,
      List.lookup "mos_scores"
        (evaluate_audio_file ["uploads/a.wav"] sampleDecodeMono (some sampleEngine) "t" "uploads/a.wav")
        = some (.jObj mos) ∧
      List.lookup "raw_scores"
        (evaluate_audio_file ["uploads/a.wav"] sampleDecodeMono (some sampleEngine) "t" "uploads/a.wav")
        = some (.jObj raw) ∧
      numValues mos = (numValues raw).map (roundTo 3) ∧
      numValues raw = [sampleScores.MOS_OVRL, sampleScores.MOS_SIG, sampleScores.MOS_NOISE,
        sampleScores.MOS_LOUD, sampleScores.MOS_COL, sampleScores.MOS_DISC, sampleScores.MOS_REVERB] :=
  claim_C5_display_rounding ["uploads/a.wav"] sampleDecodeMono (some sampleEngine) "t" "uploads/a.wav"
    (.mono [0, 1/2, 1]) 2 sampleScores sampleEngine (by decide) rfl (by decide) rfl rfl

/-- Claim C6: in every successful evaluation the `raw_scores` keys are the
fixed sequence OVRL, SIG, NOISE, LOUD, COL, DISC, REVERB, and the `mos_scores`
keys are, position by position, the localized label joined to the same raw key —
the same fixed order in both renderings.  Both key lists are constants,
independent of every input, so they are identical across repeated calls. -/
theorem claim_C6_field_order (fs : List String) (decode : String → DecodeResult)
    (engine : Option Engine) (now p : String) (data : AudioData) (rate : ℕ) (s : Scores)
    (e : Engine) (hmem : p ∈ fs) (hdec : decode p = .ok data rate) (hrate : rate ≠ 0)
    (heng : engine = some e) (hrun : e (toMonoSamples data) rate = .ok s) :
    ∃ mos raw : JObj,
      List.lookup "mos_scores" (evaluate_audio_file fs decode engine now p) = some (.jObj mos) ∧
      List.lookup "raw_scores" (evaluate_audio_file fs decode engine now p) = some (.jObj raw) ∧
      raw.map Prod.fst = ["MOS_OVRL", "MOS_SIG", "MOS_NOISE", "MOS_LOUD", "MOS_COL",
        "MOS_DISC", "MOS_REVERB"] ∧
      mos.map Prod.fst = List.zipWith (fun zh k => zh ++ "_" ++ k)
        ["整体质量", "信号质量", "噪声程度", "响度", "着色度", "不连续性", "混响"]
        (raw.map Prod.fst) := by
  rw [evaluate_audio_file_success fs decode engine now p data rate s e hmem hdec hrate heng hrun]
  exact ⟨mosScoresObj s, rawScoresObj s, rfl, rfl, rfl, rfl⟩

/-- Witness for C6 at a concrete successful evaluation. -/
theorem claim_C6_witness :
    ∃ mos raw : JObj,
      List.lookup "mos_scores"
        (evaluate_audio_file ["uploads/a.wav"] sampleDecodeMono (some sampleEngine) "t" "uploads/a.wav")
        = some (.jObj mos) ∧
      List.lookup "raw_scores"
        (evaluate_audio_file ["uploads/a.wav"] sampleDecodeMono (some sampleEngine) "t" "uploads/a.wav")
        = some (.jObj raw) ∧
      raw.map Prod.fst = ["MOS_OVRL", "MOS_SIG", "MOS_NOISE", "MOS_LOUD", "MOS_COL",
        "MOS_DISC", "MOS_REVERB"] ∧
      mos.map Prod.fst = List.zipWith (fun zh k => zh ++ "_" ++ k)
        ["整体质量", "信号质量", "噪声程度", "响度", "着色度", "不连续性", "混响"]
        (raw.map Prod.fst) :=
  claim_C6_field_order ["uploads/a.wav"] sampleDecodeMono (some sampleEngine) "t" "uploads/a.wav"
    (.mono [0, 1/2, 1]) 2 sampleScores sampleEngine (by decide) rfl (by decide) rfl rfl

/-- Counterexample to claim C7 as stated: the claim requires every 400
rejection to carry "an error message naming the allowed extension set", but a
request with no file part is rejected with 400 and the message `没有上传文件`,
which mentions none of the allowed extensions. -/
theorem claim_C7_counterexample :
    (evaluate_uploaded_file none [] sampleDecodeFail none "t" "u" none false).1.status = 400 ∧
    List.lookup "error" (evaluate_uploaded_file none [] sampleDecodeFail none "t" "u" none false).1.body
      = some (.jStr "没有上传文件") ∧
    ∀ ext ∈ ALLOWED_EXTENSIONS, ¬ ext.toList <:+: "没有上传文件".toList := by
  refine ⟨rfl, rfl, ?_⟩
  decide

/-- Claim C7 (amended): a `POST /evaluate` request is rejected with status 400
if and only if the file part is absent, the filename is empty, or the filename
fails the extension allow-list; only the unsupported-extension rejection's
message names the allowed extension set — each allowed extension occurs in it,
while the missing-file rejection's message is exactly `没有上传文件` and the
empty-filename rejection's message is exactly `没有选择文件`, neither of which
contains any allowed extension; requests passing all three checks proceed to
processing (status 200 or 500, never 400). -/
theorem claim_C7_amended_validation (filePart : Option String) (fs : List String)
    (decode : String → DecodeResult) (engine : Option Engine) (now tempPath : String)
    (save : Option String) (deleteFails : Bool) :
    ((evaluate_uploaded_file filePart fs decode engine now tempPath save deleteFails).1.status = 400 ↔
       filePart = none ∨ ∃ f, filePart = some f ∧ (f = "" ∨ allowed_file f = false))
    ∧ (∀ f, filePart = some f → f ≠ "" → allowed_file f = true →
        (evaluate_uploaded_file filePart fs decode engine now tempPath save deleteFails).1.status = 200 ∨
        (evaluate_uploaded_file filePart fs decode engine now tempPath save deleteFails).1.status = 500)
    ∧ (∀ f, filePart = some f → f ≠ "" → allowed_file f = false →
        List.lookup "error"
          (evaluate_uploaded_file filePart fs decode engine now tempPath save deleteFails).1.body
          = some (.jStr extErrorMsg))
    ∧ (∀ ext ∈ ALLOWED_EXTENSIONS, ext.toList <:+: extErrorMsg.toList)
    ∧ (filePart = none →
        List.lookup "error"
          (evaluate_uploaded_file filePart fs decode engine now tempPath save deleteFails).1.body
          = some (.jStr "没有上传文件"))
    ∧ (∀ f, filePart = some f → f = "" →
        List.lookup "error"
          (evaluate_uploaded_file filePart fs decode engine now tempPath save deleteFails).1.body
          = some (.jStr "没有选择文件"))
    ∧ (∀ ext ∈ ALLOWED_EXTENSIONS,
        ¬ ext.toList <:+: "没有上传文件".toList ∧ ¬ ext.toList <:+: "没有选择文件".toList) := by
  refine ⟨?_, ?_, ?_, by decide, ?_, ?_, by decide⟩
  · match filePart with
    | none => simp [evaluate_uploaded_file]
    | some f =>
      by_cases hf : f = ""
      · subst hf
        simp [evaluate_uploaded_file]
      · by_cases ha : allowed_file f = true
        · apply iff_of_false
          · intro h400
            rcases upload_pass_status f fs decode engine now tempPath save deleteFails hf ha with h | h
            · rw [h400] at h; exact absurd h (by decide)
            · rw [h400] at h; exact absurd h (by decide)
          · rintro (h | ⟨f2, hf2, h⟩)
            · exact Option.noConfusion h
            · rcases Option.some.inj hf2 with rfl
              rcases h with h | h
              · exact hf h
              · rw [ha] at h; exact Bool.noConfusion h
        · have ha2 : allowed_file f = false := by
            cases h2 : allowed_file f
            · rfl
            · exact absurd h2 ha
          apply iff_of_true
          · unfold evaluate_uploaded_file
            dsimp only
            rw [if_neg hf, ha2]
            rfl
          · exact .inr ⟨f, rfl, .inr ha2⟩
  · rintro f rfl hf ha
    exact upload_pass_status f fs decode engine now tempPath save deleteFails hf ha
  · rintro f rfl hf ha
    unfold evaluate_uploaded_file
    dsimp only
    rw [if_neg hf, ha]
    rfl
  · rintro rfl
    rfl
  · rintro f rfl rfl
    rfl

/-- Witness for the amended C7 at a concrete `.txt` upload. -/
theorem claim_C7_witness :
    (evaluate_uploaded_file (some "x.txt") [] sampleDecodeFail none "t" "u" none false).1.status = 400 ∧
    List.lookup "error"
      (evaluate_uploaded_file (some "x.txt") [] sampleDecodeFail none "t" "u" none false).1.body
      = some (.jStr extErrorMsg) :=
  ⟨(claim_C7_amended_validation (some "x.txt") [] sampleDecodeFail none "t" "u" none false).1.mpr
      (.inr ⟨"x.txt", rfl, .inr (by decide)⟩),
   (claim_C7_amended_validation (some "x.txt") [] sampleDecodeFail none "t" "u" none false).2.2.1
      "x.txt" rfl (by decide) (by decide)⟩

/-- Claim C8: a `POST /evaluate_path` request gets status 400 exactly when the
`file_path` parameter is missing, status 404 exactly when the parameter is
present but the path does not exist, and otherwise proceeds to evaluation. -/
theorem claim_C8_path_validation (filePathParam : Option String) (fs : List String)
    (decode : String → DecodeResult) (engine : Option Engine) (now : String) :
    ((evaluate_file_path filePathParam fs decode engine now).status = 400 ↔ filePathParam = none)
    ∧ ((evaluate_file_path filePathParam fs decode engine now).status = 404 ↔
        ∃ p, filePathParam = some p ∧ p ∉ fs)
    ∧ (∀ p, filePathParam = some p → p ∈ fs →
        evaluate_file_path filePathParam fs decode engine now
          = respond (evaluate_audio_file fs decode engine now p)) := by
  match filePathParam with
  | none =>
    refine ⟨by simp [evaluate_file_path], ?_, ?_⟩
    · apply iff_of_false (by simp [evaluate_file_path])
      rintro ⟨p, hp, _⟩
      exact Option.noConfusion hp
    · intro p hp
      exact absurd hp (by simp)
  | some p =>
    by_cases hmem : p ∈ fs
    · have hproc : evaluate_file_path (some p) fs decode engine now
          = respond (evaluate_audio_file fs decode engine now p) := by
        simp [evaluate_file_path, hmem]
      refine ⟨?_, ?_, ?_⟩
      · apply iff_of_false
        · rw [hproc]
          rcases respond_status (evaluate_audio_file fs decode engine now p) with h | h <;>
            rw [h] <;> decide
        · intro h
          exact Option.noConfusion h
      · apply iff_of_false
        · rw [hproc]
          rcases respond_status (evaluate_audio_file fs decode engine now p) with h | h <;>
            rw [h] <;> decide
        · rintro ⟨q, hq, hnq⟩
          rcases Option.some.inj hq with rfl
          exact hnq hmem
      · rintro q hq _
        rcases Option.some.inj hq with rfl
        exact hproc
    · refine ⟨?_, ?_, ?_⟩
      · apply iff_of_false
        · simp [evaluate_file_path, hmem]
        · intro h
          exact Option.noConfusion h
      · apply iff_of_true
        · simp [evaluate_file_path, hmem]
        · exact ⟨p, rfl, hmem⟩
      · rintro q hq hqmem
        rcases Option.some.inj hq with rfl
        exact absurd hqmem hmem

/-- Witness for C8: missing parameter gives 400, a non-existent path gives 404. -/
theorem claim_C8_witness :
    (evaluate_file_path none [] sampleDecodeMono none "t").status = 400 ∧
    (evaluate_file_path (some "nope.wav") [] sampleDecodeMono none "t").status = 404 :=
  ⟨(claim_C8_path_validation none [] sampleDecodeMono none "t").1.mpr rfl,
   (claim_C8_path_validation (some "nope.wav") [] sampleDecodeMono none "t").2.1.mpr
      ⟨"nope.wav", rfl, by decide⟩⟩

/-- Claim C9: `GET /health` answers 503 with an unhealthy body exactly when the
engine handle is unset and 200 with a healthy body otherwise; with the engine
unset, the evaluation endpoints never answer 503 — their status is 400 or 500
for uploads, and 400, 404 or 500 for path mode — and every request that
actually reaches evaluation (an upload passing validation, or an existing
path) is answered exactly 500: the `None.run` `AttributeError` is caught and
surfaced as a processing error. -/
theorem claim_C9_health_engine :
    (∀ engine : Option Engine, (health_check engine).status = 503 ↔ engine = none)
    ∧ List.lookup "status" (health_check none).body = some (.jStr "unhealthy")
    ∧ (∀ e : Engine, (health_check (some e)).status = 200 ∧
        List.lookup "status" (health_check (some e)).body = some (.jStr "healthy"))
    ∧ (∀ (filePart : Option String) (fs : List String) (decode : String → DecodeResult)
         (now tempPath : String) (save : Option String) (deleteFails : Bool),
        (evaluate_uploaded_file filePart fs decode none now tempPath save deleteFails).1.status = 400 ∨
        (evaluate_uploaded_file filePart fs decode none now tempPath save deleteFails).1.status = 500)
    ∧ (∀ (filePathParam : Option String) (fs : List String) (decode : String → DecodeResult)
         (now : String),
        (evaluate_file_path filePathParam fs decode none now).status = 400 ∨
        (evaluate_file_path filePathParam fs decode none now).status = 404 ∨
        (evaluate_file_path filePathParam fs decode none now).status = 500)
    ∧ (∀ (f : String) (fs : List String) (decode : String → DecodeResult)
         (now tempPath : String) (save : Option String) (deleteFails : Bool),
        f ≠ "" → allowed_file f = true →
        (evaluate_uploaded_file (some f) fs decode none now tempPath save deleteFails).1.status = 500)
    ∧ (∀ (p : String) (fs : List String) (decode : String → DecodeResult) (now : String),
        p ∈ fs →
        (evaluate_file_path (some p) fs decode none now).status = 500) := by
  refine ⟨?_, rfl, fun e => ⟨rfl, rfl⟩, ?_, ?_, ?_, ?_⟩
  · intro engine
    match engine with
    | none => simp [health_check]
    | some e => simp [health_check]
  · intro filePart fs decode now tempPath save dfail
    match filePart with
    | none => exact .inl rfl
    | some f =>
      by_cases hf : f = ""
      · subst hf
        exact .inl rfl
      · by_cases ha : allowed_file f = true
        · unfold evaluate_uploaded_file
          simp only [if_neg hf, ha, Bool.not_true, Bool.false_eq_true, if_false]
          match save with
          | some e => exact .inr rfl
          | none =>
            right
            dsimp only
            unfold respond
            rw [if_neg (by rw [resultSuccess_no_engine]; exact Bool.false_ne_true)]
        · have ha2 : allowed_file f = false := by
            cases h2 : allowed_file f
            · rfl
            · exact absurd h2 ha
          unfold evaluate_uploaded_file
          dsimp only
          rw [if_neg hf, ha2]
          exact .inl rfl
  · intro param fs decode now
    match param with
    | none => exact .inl rfl
    | some p =>
      by_cases hmem : p ∈ fs
      · right; right
        unfold evaluate_file_path
        dsimp only
        rw [if_pos hmem]
        unfold respond
        rw [if_neg (by rw [resultSuccess_no_engine]; exact Bool.false_ne_true)]
      · right; left
        unfold evaluate_file_path
        dsimp only
        rw [if_neg hmem]
  · intro f fs decode now tempPath save dfail hf ha
    unfold evaluate_uploaded_file
    dsimp only
    rw [if_neg hf, ha, if_neg (by decide : ¬ ((!true) = true))]
    cases save with
    | some e => rfl
    | none =>
      dsimp only
      unfold respond
      rw [if_neg (by rw [resultSuccess_no_engine]; exact Bool.false_ne_true)]
  · intro p fs decode now hmem
    unfold evaluate_file_path
    dsimp only
    rw [if_pos hmem]
    unfold respond
    rw [if_neg (by rw [resultSuccess_no_engine]; exact Bool.false_ne_true)]

/-- Witness for C9 at concrete states: engine unset and engine loaded; an
upload passing validation and an existing path are both answered 500 with the
engine unset. -/
theorem claim_C9_witness :
    (health_check none).status = 503 ∧
    (health_check (some sampleEngine)).status = 200 ∧
    (evaluate_uploaded_file (some "a.wav") [] sampleDecodeMono none "t" "uploads/u_a.wav" none false).1.status
      = 500 ∧
    (evaluate_file_path (some "a.wav") ["a.wav"] sampleDecodeMono none "t").status = 500 :=
  ⟨(claim_C9_health_engine.1 none).mpr rfl,
   (claim_C9_health_engine.2.2.1 sampleEngine).1,
   claim_C9_health_engine.2.2.2.2.2.1 "a.wav" [] sampleDecodeMono "t" "uploads/u_a.wav" none false
     (by decide) (by decide),
   claim_C9_health_engine.2.2.2.2.2.2 "a.wav" ["a.wav"] sampleDecodeMono "t" (by decide)⟩

/-- Claim C10: the upload filename check accepts a filename exactly when it
splits as `pre ++ "." ++ ext` with a dot-free `ext` (the substring after the
last dot) whose lowercasing is one of wav, mp3, flac, m4a; in particular a
dot-free filename such as `audio` is rejected while `.wav` is accepted. -/
theorem claim_C10_allowed_file (f : String) :
    (allowed_file f = true ↔
      ∃ pre ext : List Char, f.toList = pre ++ '.' :: ext ∧ '.' ∉ ext ∧
        lowerStr ext ∈ ALLOWED_EXTENSIONS) ∧
    allowed_file "audio" = false ∧
    allowed_file ".wav" = true :=
  ⟨allowed_file_iff f, by decide, by decide⟩

/-- Witness for C10 at concrete filenames. -/
theorem claim_C10_witness :
    allowed_file ".wav" = true ∧ allowed_file "audio" = false :=
  ⟨(claim_C10_allowed_file ".wav").2.2, (claim_C10_allowed_file "audio").2.1⟩

end SigMOS
